import Mathlib

/-!
Shallow embedding of `python/mxnet/lr_scheduler.py`: the learning-rate
schedulers `FactorScheduler`, `MultiFactorScheduler` and `PolyScheduler`.

Modelling conventions:
* Python floats are modelled as rationals (every Python float literal is a
  rational); `math.pow` is modelled as the real power `Real.rpow`, which
  agrees with `math.pow` on the non-negative bases the schedulers reach
  (in particular `pow 0 0 = 1` and `pow 0 y = 0` for `y > 0`).
* A raised exception (a failed validation in a constructor, the
  `ZeroDivisionError` in `PolyScheduler.__call__` when `total_update = 0`)
  is modelled as `none`.
* A stateful `__call__` method becomes a function from the state and
  `num_update` to the pair of the updated state and the returned rate.
* `base_lr` is initialised to `0.01` by the base class `LRScheduler`
  (line 15 of the source), so every constructor below starts it at `1/100`.
-/

/-- State of `FactorScheduler` (`lr_scheduler.py`, lines 37-83): the
configuration `step`, `factor`, `stop_factor_lr` plus the mutable
`base_lr` and `count`. -/
structure FactorScheduler where
  step : ℤ
  factor : ℚ
  stop_factor_lr : ℚ
  base_lr : ℚ
  count : ℤ
  deriving DecidableEq

/-- Model of `FactorScheduler.__init__` (lines 52-61): fails when
`step < 1` or `factor > 1.0`, otherwise produces the initial state with
`base_lr = 0.01` and `count = 0`. -/
def FactorScheduler.mk? (step : ℤ) (factor : ℚ) (stop_factor_lr : ℚ) :
    Option FactorScheduler :=
  if step < 1 then none
  else if factor > 1 then none
  else some ⟨step, factor, stop_factor_lr, 1/100, 0⟩

/-- Model of `FactorScheduler.__call__` (lines 63-83): when
`num_update > count + step`, advance `count` by `step`, multiply `base_lr`
by `factor` and clamp it up to `stop_factor_lr`; return the updated state
together with the returned `base_lr`. -/
def FactorScheduler.call (s : FactorScheduler) (num_update : ℤ) :
    FactorScheduler × ℚ :=
  if num_update > s.count + s.step then
    if s.base_lr * s.factor < s.stop_factor_lr then
      ({ s with count := s.count + s.step, base_lr := s.stop_factor_lr },
        s.stop_factor_lr)
    else
      ({ s with count := s.count + s.step, base_lr := s.base_lr * s.factor },
        s.base_lr * s.factor)
  else (s, s.base_lr)

/-- Run a `FactorScheduler` over a list of successive `num_update` values,
collecting the rate returned by each call. -/
def FactorScheduler.run (s : FactorScheduler) : List ℤ → List ℚ
  | [] => []
  | u :: us => (s.call u).2 :: ((s.call u).1.run us)

/-- C1 (counterexample): for `FactorScheduler(step=2, factor=0.5)` called
with `num_update = 0,...,6`, the rate does not stay unchanged from the call
with `num_update=3` until the call with `num_update=6`: it halves a second
time already at the call with `num_update=5` (since `5 > 2+2`), and the
call with `num_update=6` leaves it unchanged (`6 > 4+6` fails as
`6 > 4+2` is false), contradicting the claimed rate sequence. -/
theorem factor_demo_counterexample :
    FactorScheduler.mk? 2 (1/2) (1/100000000) =
      some ⟨2, 1/2, 1/100000000, 1/100, 0⟩ ∧
    (⟨2, 1/2, 1/100000000, 1/100, 0⟩ : FactorScheduler).run
        [0, 1, 2, 3, 4, 5, 6] =
      [1/100, 1/100, 1/100, 1/200, 1/200, 1/400, 1/400] ∧
    (⟨2, 1/2, 1/100000000, 1/100, 0⟩ : FactorScheduler).run
        [0, 1, 2, 3, 4, 5, 6] ≠
      [1/100, 1/100, 1/100, 1/200, 1/200, 1/200, 1/400] := by
  refine ⟨by norm_num [FactorScheduler.mk?],
    by norm_num [FactorScheduler.run, FactorScheduler.call],
    by norm_num [FactorScheduler.run, FactorScheduler.call]⟩

/-- C1 (amended): `FactorScheduler(step=2, factor=0.5)` called with
`num_update = 0,...,6` returns the base rate `0.01` for
`num_update = 0,1,2`, halves exactly at the call with `num_update=3`,
keeps that value at `num_update=4`, halves a second time at the call with
`num_update=5`, and keeps that value at `num_update=6`. -/
theorem factor_demo_rates :
    FactorScheduler.mk? 2 (1/2) (1/100000000) =
      some ⟨2, 1/2, 1/100000000, 1/100, 0⟩ ∧
    (⟨2, 1/2, 1/100000000, 1/100, 0⟩ : FactorScheduler).run
        [0, 1, 2, 3, 4, 5, 6] =
      [1/100, 1/100, 1/100, 1/200, 1/200, 1/400, 1/400] := by
  refine ⟨by norm_num [FactorScheduler.mk?],
    by norm_num [FactorScheduler.run, FactorScheduler.call]⟩

/-- A `FactorScheduler` call never changes the configuration fields, and the
returned rate is the updated `base_lr`. -/
lemma FactorScheduler.call_fields (s : FactorScheduler) (u : ℤ) :
    (s.call u).1.factor = s.factor ∧
    (s.call u).1.stop_factor_lr = s.stop_factor_lr ∧
    (s.call u).1.step = s.step ∧
    (s.call u).2 = (s.call u).1.base_lr := by
  unfold FactorScheduler.call
  split
  · split <;> exact ⟨rfl, rfl, rfl, rfl⟩
  · exact ⟨rfl, rfl, rfl, rfl⟩

/-- With a factor in `[0, 1]`, a nonnegative `base_lr` at or above the floor,
one call keeps `base_lr` nonnegative, at or above the floor, and does not
increase it. -/
lemma FactorScheduler.call_base_lr_bounds (s : FactorScheduler) (u : ℤ)
    (hf0 : 0 ≤ s.factor) (hf1 : s.factor ≤ 1)
    (h0 : 0 ≤ s.base_lr) (hL : s.stop_factor_lr ≤ s.base_lr) :
    (s.call u).1.base_lr ≤ s.base_lr ∧ 0 ≤ (s.call u).1.base_lr ∧
    s.stop_factor_lr ≤ (s.call u).1.base_lr := by
  unfold FactorScheduler.call
  split
  · split
    · rename_i hdec hclamp
      exact ⟨hL, le_of_lt (lt_of_le_of_lt (mul_nonneg h0 hf0) hclamp),
        le_refl _⟩
    · rename_i hdec hclamp
      push_neg at hclamp
      exact ⟨mul_le_of_le_one_right h0 hf1, mul_nonneg h0 hf0, hclamp⟩
  · exact ⟨le_refl _, h0, hL⟩

/-- Over any call list, starting from a state with factor in `[0, 1]` and
`base_lr` nonnegative and at or above the floor, the returned rates are
non-increasing and each stays between the floor and the starting `base_lr`. -/
lemma FactorScheduler.run_bounds (us : List ℤ) :
    ∀ s : FactorScheduler, 0 ≤ s.factor → s.factor ≤ 1 → 0 ≤ s.base_lr →
      s.stop_factor_lr ≤ s.base_lr →
      (s.run us).Chain' (fun a b => b ≤ a) ∧
      ∀ r ∈ s.run us, s.stop_factor_lr ≤ r ∧ r ≤ s.base_lr := by
  induction us with
  | nil =>
    intro s _ _ _ _
    exact ⟨List.chain'_nil, by simp [FactorScheduler.run]⟩
  | cons u us ih =>
    intro s hf0 hf1 h0 hL
    obtain ⟨hfac, hstop, hstep, hrate⟩ := FactorScheduler.call_fields s u
    obtain ⟨hle, hnn, hL'⟩ :=
      FactorScheduler.call_base_lr_bounds s u hf0 hf1 h0 hL
    have ih' := ih (s.call u).1 (by rw [hfac]; exact hf0)
      (by rw [hfac]; exact hf1) hnn (by rw [hstop]; exact hL')
    rw [hstop] at ih'
    simp only [FactorScheduler.run]
    constructor
    · rw [List.chain'_cons']
      refine ⟨?_, ih'.1⟩
      intro b hb
      have hmem := List.mem_of_mem_head? hb
      have := (ih'.2 b hmem).2
      rw [hrate]
      exact this
    · intro r hr
      rcases List.mem_cons.mp hr with h | h
      · subst h
        rw [hrate]
        exact ⟨hL', hle⟩
      · have hb := ih'.2 r h
        exact ⟨hb.1, le_trans hb.2 hle⟩

/-- C2 (amended): for every `FactorScheduler` successfully constructed, with
the additional hypotheses (which the constructor does not check) that the
factor is nonnegative and the floor `L = stop_factor_lr` does not exceed the
initial `base_lr`, over every non-decreasing call sequence the returned
rates are non-increasing and never strictly below `L`.  (As stated the claim
is false: the constructor accepts `stop_factor_lr` above `base_lr`, in which
case early rates are below `L` and the clamp can increase the rate, and it
accepts negative factors, which make the rate oscillate in sign.) -/
theorem factor_run_monotone_floor (step : ℤ) (factor L : ℚ)
    (s : FactorScheduler)
    (hmk : FactorScheduler.mk? step factor L = some s)
    (hf0 : 0 ≤ factor) (hL : L ≤ s.base_lr)
    (us : List ℤ) (_hus : us.Chain' (· ≤ ·)) :
    (s.run us).Chain' (fun a b => b ≤ a) ∧ ∀ r ∈ s.run us, L ≤ r := by
  unfold FactorScheduler.mk? at hmk
  split at hmk
  · exact absurd hmk (by simp)
  · split at hmk
    · exact absurd hmk (by simp)
    · rename_i h1 h2
      push_neg at h2
      simp only [Option.some.injEq] at hmk
      subst hmk
      have hb := FactorScheduler.run_bounds us ⟨step, factor, L, 1/100, 0⟩
        hf0 h2 (by norm_num) hL
      exact ⟨hb.1, fun r hr => (hb.2 r hr).1⟩

/-- C2 witness: the amended theorem applied to
`FactorScheduler(step=2, factor=0.5, stop_factor_lr=1e-8)` on the
non-decreasing call sequence `[0, 5]`. -/
theorem factor_run_monotone_floor_witness :
    ((⟨2, 1/2, 1/100000000, 1/100, 0⟩ : FactorScheduler).run [0, 5]).Chain'
      (fun a b => b ≤ a) ∧
    ∀ r ∈ (⟨2, 1/2, 1/100000000, 1/100, 0⟩ : FactorScheduler).run [0, 5],
      (1/100000000 : ℚ) ≤ r :=
  factor_run_monotone_floor 2 (1/2) (1/100000000) _
    (by norm_num [FactorScheduler.mk?]) (by norm_num)
    (by show (1/100000000 : ℚ) ≤ 1/100; norm_num) [0, 5]
    (by simp [List.chain'_cons, List.chain'_singleton])

/-- C2 (counterexample): `FactorScheduler(step=1, factor=1,
stop_factor_lr=1)` is accepted by the constructor (`step ≥ 1`,
`factor ≤ 1.0`), yet over the non-decreasing call sequence `[0, 2]` it
returns the rates `[0.01, 1]`: the first returned rate `0.01` is strictly
below `L = 1`, and the second call increases the rate (the clamp raises
`base_lr` up to `stop_factor_lr = 1 > 0.01`), so the sequence is not
non-increasing either. -/
theorem factor_run_counterexample :
    FactorScheduler.mk? 1 1 1 = some ⟨1, 1, 1, 1/100, 0⟩ ∧
    List.Chain' (· ≤ ·) [(0 : ℤ), 2] ∧
    (⟨1, 1, 1, 1/100, 0⟩ : FactorScheduler).run [0, 2] = [1/100, 1] ∧
    (1/100 : ℚ) < 1 ∧ ¬ ((1 : ℚ) ≤ 1/100) := by
  refine ⟨by norm_num [FactorScheduler.mk?],
    by simp [List.chain'_cons, List.chain'_singleton],
    by norm_num [FactorScheduler.run, FactorScheduler.call],
    by norm_num, by norm_num⟩

/-- C5: a `FactorScheduler` call decays exactly when
`num_update > count + step`; a decaying call advances `count` by exactly
`step` (so at most one decay step per call, however far `num_update`
jumped), multiplies `base_lr` by `factor` clamped up to `stop_factor_lr`,
leaves the configuration unchanged and returns the new `base_lr`; a
non-decaying call leaves the whole state unchanged and returns the current
`base_lr`. -/
theorem factor_call_spec (s : FactorScheduler) (u : ℤ) :
    (u > s.count + s.step →
      (s.call u).1.count = s.count + s.step ∧
      (s.call u).1.base_lr =
        (if s.base_lr * s.factor < s.stop_factor_lr then s.stop_factor_lr
         else s.base_lr * s.factor) ∧
      (s.call u).1.step = s.step ∧
      (s.call u).1.factor = s.factor ∧
      (s.call u).1.stop_factor_lr = s.stop_factor_lr ∧
      (s.call u).2 = (s.call u).1.base_lr) ∧
    (¬ u > s.count + s.step → s.call u = (s, s.base_lr)) := by
  constructor
  · intro h
    by_cases hc : s.base_lr * s.factor < s.stop_factor_lr <;>
      simp [FactorScheduler.call, if_pos h, hc]
  · intro h
    simp [FactorScheduler.call, if_neg h]

/-- C5 witness: the call specification applied to
`FactorScheduler(step=2, factor=0.5, stop_factor_lr=1e-8)` in its initial
state, once at `num_update = 3` (which decays) and once at
`num_update = 0` (which does not). -/
theorem factor_call_spec_witness :
    (((⟨2, 1/2, 1/100000000, 1/100, 0⟩ : FactorScheduler).call 3).1.count =
        0 + 2 ∧
      ((⟨2, 1/2, 1/100000000, 1/100, 0⟩ : FactorScheduler).call 3).1.base_lr =
        (if (1/100 : ℚ) * (1/2) < 1/100000000 then (1/100000000 : ℚ)
         else 1/100 * (1/2)) ∧
      ((⟨2, 1/2, 1/100000000, 1/100, 0⟩ : FactorScheduler).call 3).1.step =
        2 ∧
      ((⟨2, 1/2, 1/100000000, 1/100, 0⟩ : FactorScheduler).call 3).1.factor =
        1/2 ∧
      ((⟨2, 1/2, 1/100000000, 1/100, 0⟩ :
          FactorScheduler).call 3).1.stop_factor_lr = 1/100000000 ∧
      ((⟨2, 1/2, 1/100000000, 1/100, 0⟩ : FactorScheduler).call 3).2 =
        ((⟨2, 1/2, 1/100000000, 1/100, 0⟩ :
          FactorScheduler).call 3).1.base_lr) ∧
    (⟨2, 1/2, 1/100000000, 1/100, 0⟩ : FactorScheduler).call 0 =
      (⟨2, 1/2, 1/100000000, 1/100, 0⟩, 1/100) :=
  ⟨(factor_call_spec ⟨2, 1/2, 1/100000000, 1/100, 0⟩ 3).1 (by decide),
    (factor_call_spec ⟨2, 1/2, 1/100000000, 1/100, 0⟩ 0).2 (by decide)⟩

/-- State of `MultiFactorScheduler` (`lr_scheduler.py`, lines 85-132): the
milestone list `step` and `factor` plus the mutable `base_lr`,
`cur_step_ind` and `count`. -/
structure MultiFactorScheduler where
  step : List ℤ
  factor : ℚ
  base_lr : ℚ
  cur_step_ind : ℕ
  count : ℤ
  deriving DecidableEq

/-- Model of `MultiFactorScheduler.__init__` (lines 100-113): fails when the
milestone list is empty (the `len(step) >= 1` assertion), when some adjacent
pair is not strictly increasing, when some milestone is below `1`, or when
`factor > 1.0`; otherwise produces the initial state with `base_lr = 0.01`,
`cur_step_ind = 0` and `count = 0`. -/
def MultiFactorScheduler.mk? (step : List ℤ) (factor : ℚ) :
    Option MultiFactorScheduler :=
  if 1 ≤ step.length ∧ step.Chain' (fun a b => a < b) ∧
      (∀ x ∈ step, 1 ≤ x) ∧ factor ≤ 1 then
    some ⟨step, factor, 1/100, 0, 0⟩
  else none

/-- Model of `MultiFactorScheduler.__call__` (lines 115-132): while
`cur_step_ind` is still in bounds, a `num_update` beyond the current
milestone records that milestone into `count`, advances `cur_step_ind` by
one and multiplies `base_lr` by `factor`; the returned rate is the
(possibly updated) `base_lr`. -/
def MultiFactorScheduler.call (s : MultiFactorScheduler) (num_update : ℤ) :
    MultiFactorScheduler × ℚ :=
  if (s.cur_step_ind : ℤ) ≤ (s.step.length : ℤ) - 1 then
    if num_update > s.step.getD s.cur_step_ind 0 then
      ({ s with count := s.step.getD s.cur_step_ind 0,
                cur_step_ind := s.cur_step_ind + 1,
                base_lr := s.base_lr * s.factor },
        s.base_lr * s.factor)
    else (s, s.base_lr)
  else (s, s.base_lr)

/-- Call a `MultiFactorScheduler` once per `num_update`, with `num_update`
increasing one at a time from `0`; `iter s n` is the state and returned
rate of the call with `num_update = n`. -/
def MultiFactorScheduler.iter (s : MultiFactorScheduler) :
    ℕ → MultiFactorScheduler × ℚ
  | 0 => s.call 0
  | n + 1 => (s.iter n).1.call ((n : ℤ) + 1)

/-- The state of the `MultiFactorScheduler(step=[5,10], factor=0.1)` demo
after the call with `num_update = n`. -/
def mfDemoState (n : ℕ) : MultiFactorScheduler :=
  if n ≤ 5 then ⟨[5, 10], 1/10, 1/100, 0, 0⟩
  else if n ≤ 10 then ⟨[5, 10], 1/10, 1/1000, 1, 5⟩
  else ⟨[5, 10], 1/10, 1/10000, 2, 10⟩

/-- One step of the `[5,10]` demo: calling the demo state for `n` with
`num_update = n + 1` yields the demo state for `n + 1` and its rate. -/
lemma mfDemo_step (n : ℕ) :
    (mfDemoState n).call ((n : ℤ) + 1) =
      (mfDemoState (n + 1), (mfDemoState (n + 1)).base_lr) := by
  unfold mfDemoState
  rcases le_or_lt (n + 1) 5 with h | h
  · have h' : n ≤ 5 := by omega
    have hn : ¬ ((n : ℤ) + 1 > 5) := by omega
    simp [MultiFactorScheduler.call, h, h', hn]
  · rcases le_or_lt (n + 1) 10 with h10 | h10
    · rcases Nat.lt_or_ge n 6 with h6 | h6
      · have hn5 : n = 5 := by omega
        subst hn5
        norm_num [MultiFactorScheduler.call]
      · have h' : ¬ n ≤ 5 := by omega
        have h'' : n ≤ 10 := by omega
        have h4 : ¬ n ≤ 4 := by omega
        have hn : ¬ ((n : ℤ) + 1 > 10) := by omega
        simp [MultiFactorScheduler.call, h, h', h'', h10, h4, hn]
    · rcases Nat.lt_or_ge n 11 with h11 | h11
      · have hn10 : n = 10 := by omega
        subst hn10
        norm_num [MultiFactorScheduler.call]
      · have h' : ¬ n ≤ 5 := by omega
        have h'' : ¬ n ≤ 10 := by omega
        have h''' : ¬ n + 1 ≤ 10 := by omega
        have h4 : ¬ n + 1 ≤ 5 := by omega
        simp [MultiFactorScheduler.call, h', h'', h''', h4]

/-- The `[5,10]` demo run: after the call with `num_update = n`, the state
is `mfDemoState n` and the returned rate is its `base_lr`. -/
lemma mfDemo_iter (n : ℕ) :
    MultiFactorScheduler.iter ⟨[5, 10], 1/10, 1/100, 0, 0⟩ n =
      (mfDemoState n, (mfDemoState n).base_lr) := by
  induction n with
  | zero =>
    norm_num [MultiFactorScheduler.iter, MultiFactorScheduler.call,
      mfDemoState]
  | succ n ih =>
    rw [MultiFactorScheduler.iter, ih]
    exact mfDemo_step n

/-- C6: `MultiFactorScheduler(step=[5,10], factor=0.1)` is successfully
constructed, and called once per `num_update` with `num_update` increasing
one at a time from `0`, the returned rate is `0.01` for every
`num_update ≤ 5`, `0.001` for every `5 < num_update ≤ 10`, and `0.0001`
for every `num_update > 10`, for all further increases. -/
theorem multifactor_demo_rates :
    MultiFactorScheduler.mk? [5, 10] (1/10) =
      some ⟨[5, 10], 1/10, 1/100, 0, 0⟩ ∧
    ∀ n : ℕ, (MultiFactorScheduler.iter ⟨[5, 10], 1/10, 1/100, 0, 0⟩ n).2 =
      if n ≤ 5 then 1/100 else if n ≤ 10 then 1/1000 else 1/10000 := by
  constructor
  · norm_num [MultiFactorScheduler.mk?, List.chain'_cons,
      List.chain'_singleton]
  · intro n
    rw [mfDemo_iter]
    unfold mfDemoState
    split_ifs <;> rfl

/-- Trace of the states visited while running a `MultiFactorScheduler` over
a list of calls, starting state included. -/
def MultiFactorScheduler.states (s : MultiFactorScheduler) :
    List ℤ → List MultiFactorScheduler
  | [] => [s]
  | u :: us => s :: ((s.call u).1.states us)

/-- The head of a state trace is the starting state. -/
lemma MultiFactorScheduler.states_head (s : MultiFactorScheduler)
    (us : List ℤ) : (s.states us).head? = some s := by
  cases us <;> rfl

/-- A `MultiFactorScheduler` call never decreases `cur_step_ind`, advances
it by at most one, and never changes the milestone list. -/
lemma MultiFactorScheduler.call_ind (s : MultiFactorScheduler) (u : ℤ) :
    s.cur_step_ind ≤ (s.call u).1.cur_step_ind ∧
    (s.call u).1.cur_step_ind ≤ s.cur_step_ind + 1 ∧
    (s.call u).1.step = s.step := by
  unfold MultiFactorScheduler.call
  split
  · split
    · exact ⟨Nat.le_succ _, le_refl _, rfl⟩
    · exact ⟨le_refl _, Nat.le_succ _, rfl⟩
  · exact ⟨le_refl _, Nat.le_succ _, rfl⟩

/-- A `MultiFactorScheduler` call keeps `cur_step_ind` within the bound
given by the milestone count. -/
lemma MultiFactorScheduler.call_ind_le (s : MultiFactorScheduler) (u : ℤ)
    (h : s.cur_step_ind ≤ s.step.length) :
    (s.call u).1.cur_step_ind ≤ (s.call u).1.step.length := by
  unfold MultiFactorScheduler.call
  split
  · rename_i hg
    split
    · show s.cur_step_ind + 1 ≤ s.step.length
      omega
    · exact h
  · exact h

/-- Once `cur_step_ind` has reached the milestone count, a call is a no-op
returning the current `base_lr`. -/
lemma MultiFactorScheduler.call_stuck (s : MultiFactorScheduler) (u : ℤ)
    (h : s.cur_step_ind = s.step.length) :
    s.call u = (s, s.base_lr) := by
  unfold MultiFactorScheduler.call
  rw [if_neg (by omega)]

/-- Along any run from a state whose `cur_step_ind` is within bounds, the
trace of `cur_step_ind` values is non-decreasing, moves by at most one per
call, and stays bounded by the milestone count. -/
lemma MultiFactorScheduler.states_inv (us : List ℤ) :
    ∀ s : MultiFactorScheduler, s.cur_step_ind ≤ s.step.length →
      (s.states us).Chain' (fun a b =>
        a.cur_step_ind ≤ b.cur_step_ind ∧
        b.cur_step_ind ≤ a.cur_step_ind + 1) ∧
      ∀ t ∈ s.states us, t.cur_step_ind ≤ s.step.length := by
  induction us with
  | nil =>
    intro s hs
    refine ⟨by simp [MultiFactorScheduler.states], ?_⟩
    intro t ht
    simp [MultiFactorScheduler.states] at ht
    subst ht
    exact hs
  | cons u us ih =>
    intro s hs
    obtain ⟨h1, h2, hstep⟩ := MultiFactorScheduler.call_ind s u
    have hle := MultiFactorScheduler.call_ind_le s u hs
    have ih' := ih (s.call u).1 hle
    rw [hstep] at ih'
    simp only [MultiFactorScheduler.states]
    constructor
    · rw [List.chain'_cons']
      refine ⟨?_, ih'.1⟩
      intro b hb
      rw [MultiFactorScheduler.states_head] at hb
      simp only [Option.mem_def, Option.some.injEq] at hb
      subst hb
      exact ⟨h1, h2⟩
    · intro t ht
      rcases List.mem_cons.mp ht with h | h
      · subst h
        exact hs
      · exact ih'.2 t h

/-- C7: for every `MultiFactorScheduler` state whose `cur_step_ind` is
within the milestone count (as in every constructed instance) and every
non-decreasing call sequence, `cur_step_ind` is non-decreasing along the
run, advances by at most one per call, never exceeds the length of the
milestone list, and once `cur_step_ind` equals the list length every
further call leaves the state unchanged and returns the current
`base_lr`. -/
theorem multifactor_ind_invariants (s : MultiFactorScheduler)
    (hs : s.cur_step_ind ≤ s.step.length)
    (us : List ℤ) (_hus : us.Chain' (· ≤ ·)) :
    (s.states us).Chain' (fun a b =>
      a.cur_step_ind ≤ b.cur_step_ind ∧
      b.cur_step_ind ≤ a.cur_step_ind + 1) ∧
    (∀ t ∈ s.states us, t.cur_step_ind ≤ s.step.length) ∧
    (∀ (t : MultiFactorScheduler) (v : ℤ),
      t.cur_step_ind = t.step.length → t.call v = (t, t.base_lr)) := by
  obtain ⟨hc, hb⟩ := MultiFactorScheduler.states_inv us s hs
  exact ⟨hc, hb, fun t v ht => MultiFactorScheduler.call_stuck t v ht⟩

/-- C7 witness: the invariants applied to
`MultiFactorScheduler(step=[5,10], factor=0.1)` in its initial state over
the non-decreasing call sequence `[0, 1]`. -/
theorem multifactor_ind_invariants_witness :
    ((⟨[5, 10], 1/10, 1/100, 0, 0⟩ : MultiFactorScheduler).states
        [0, 1]).Chain' (fun a b =>
      a.cur_step_ind ≤ b.cur_step_ind ∧
      b.cur_step_ind ≤ a.cur_step_ind + 1) ∧
    (∀ t ∈ (⟨[5, 10], 1/10, 1/100, 0, 0⟩ : MultiFactorScheduler).states
        [0, 1],
      t.cur_step_ind ≤
        (⟨[5, 10], 1/10, 1/100, 0, 0⟩ :
          MultiFactorScheduler).step.length) ∧
    (∀ (t : MultiFactorScheduler) (v : ℤ),
      t.cur_step_ind = t.step.length → t.call v = (t, t.base_lr)) :=
  multifactor_ind_invariants ⟨[5, 10], 1/10, 1/100, 0, 0⟩ (by decide)
    [0, 1] (by simp [List.chain'_cons, List.chain'_singleton])

/-- State of `PolyScheduler` (`lr_scheduler.py`, lines 133-163): the
configuration `power` and `total_update` plus the inherited `base_lr`,
which `__call__` only reads. -/
structure PolyScheduler where
  base_lr : ℚ
  power : ℚ
  total_update : ℤ
  deriving DecidableEq

/-- Model of `PolyScheduler.__init__` (lines 145-151): fails when
`power > 1.0` or `power < 0.0`; `total_update` is only required to be an
integer. -/
def PolyScheduler.mk? (total_update : ℤ) (power : ℚ) :
    Option PolyScheduler :=
  if power > 1 ∨ power < 0 then none
  else some ⟨1/100, power, total_update⟩

/-- Model of `PolyScheduler.__call__` (lines 153-163): the state is never
mutated; when `total_update = 0` the division raises `ZeroDivisionError`
(modelled as `none`); otherwise the rate is
`base_lr * (1 - num_update / total_update) ^ power`, with `math.pow`
modelled as the real power. -/
noncomputable def PolyScheduler.call (p : PolyScheduler) (num_update : ℤ) :
    PolyScheduler × Option ℝ :=
  if p.total_update = 0 then (p, none)
  else (p, some ((p.base_lr : ℝ) *
    (1 - (num_update : ℝ) / (p.total_update : ℝ)) ^ (p.power : ℝ)))

/-- A `PolyScheduler` call never changes the state. -/
lemma PolyScheduler.call_fst (p : PolyScheduler) (u : ℤ) :
    (p.call u).1 = p := by
  unfold PolyScheduler.call
  split <;> rfl

/-- C3 (amended): calling a scheduler twice in immediate succession with
the same `num_update` returns the same rate both times provided the first
call left the state unchanged; for `PolyScheduler`, which never mutates
its state, this holds unconditionally.  (As stated the claim is false for
the two stateful variants: when `num_update` has jumped far enough, the
first call decays and the second call with the same `num_update` decays
again, returning a strictly smaller rate.) -/
theorem schedulers_idempotent :
    (∀ (s : FactorScheduler) (u : ℤ), (s.call u).1 = s →
      ((s.call u).1.call u).2 = (s.call u).2) ∧
    (∀ (s : MultiFactorScheduler) (u : ℤ), (s.call u).1 = s →
      ((s.call u).1.call u).2 = (s.call u).2) ∧
    (∀ (p : PolyScheduler) (u : ℤ),
      ((p.call u).1.call u).2 = (p.call u).2) := by
  refine ⟨?_, ?_, ?_⟩
  · intro s u h
    rw [h]
  · intro s u h
    rw [h]
  · intro p u
    rw [PolyScheduler.call_fst]

/-- C3 witness: the amended idempotence applied to the initial
`FactorScheduler(step=2, factor=0.5)` and
`MultiFactorScheduler(step=[5,10], factor=0.1)` states at
`num_update = 0`, where the first call does not decay. -/
theorem schedulers_idempotent_witness :
    (((⟨2, 1/2, 1/100000000, 1/100, 0⟩ : FactorScheduler).call 0).1.call
        0).2 =
      ((⟨2, 1/2, 1/100000000, 1/100, 0⟩ : FactorScheduler).call 0).2 ∧
    (((⟨[5, 10], 1/10, 1/100, 0, 0⟩ : MultiFactorScheduler).call 0).1.call
        0).2 =
      ((⟨[5, 10], 1/10, 1/100, 0, 0⟩ : MultiFactorScheduler).call 0).2 :=
  ⟨schedulers_idempotent.1 ⟨2, 1/2, 1/100000000, 1/100, 0⟩ 0
      (by norm_num [FactorScheduler.call]),
    schedulers_idempotent.2.1 ⟨[5, 10], 1/10, 1/100, 0, 0⟩ 0
      (by norm_num [MultiFactorScheduler.call])⟩

/-- C3 (counterexample): for the validly constructed
`FactorScheduler(step=1, factor=0.5)` in its initial (hence reachable)
state, two calls in immediate succession with the same `num_update = 4`
return different rates: `0.005`, then `0.0025`, because the first call
decays (`4 > 0 + 1`) and the condition `4 > 1 + 1` makes the second call
decay again. -/
theorem factor_double_call_counterexample :
    FactorScheduler.mk? 1 (1/2) (1/100000000) =
      some ⟨1, 1/2, 1/100000000, 1/100, 0⟩ ∧
    ((⟨1, 1/2, 1/100000000, 1/100, 0⟩ : FactorScheduler).call 4).2 =
      1/200 ∧
    (((⟨1, 1/2, 1/100000000, 1/100, 0⟩ : FactorScheduler).call 4).1.call
        4).2 = 1/400 ∧
    (1/400 : ℚ) ≠ 1/200 := by
  refine ⟨by norm_num [FactorScheduler.mk?],
    by norm_num [FactorScheduler.call],
    by norm_num [FactorScheduler.call], by norm_num⟩

/-- C4 (counterexample): `power = 0.0` passes the constructor's validation
(`0 ≤ power ≤ 1`), yet `PolyScheduler(total_update=100, power=0.0)` called
with `num_update = total_update = 100` returns `base_lr * pow(0, 0) =
base_lr = 0.01`, not exactly zero. -/
theorem poly_horizon_counterexample :
    PolyScheduler.mk? 100 0 = some ⟨1/100, 0, 100⟩ ∧
    (⟨1/100, 0, 100⟩ : PolyScheduler).call 100 =
      (⟨1/100, 0, 100⟩, some ((1/100 : ℝ))) ∧
    (1/100 : ℝ) ≠ 0 := by
  refine ⟨by norm_num [PolyScheduler.mk?], ?_, by norm_num⟩
  unfold PolyScheduler.call
  rw [if_neg (by norm_num)]
  norm_num [Real.rpow_zero]

/-- C4 (amended): for every `PolyScheduler` constructed with valid
arguments and additionally `total_update ≠ 0` and `power > 0`, the call
with `num_update = total_update` returns exactly zero (for `power = 0.0`
the code instead returns `base_lr`, since `pow(0.0, 0.0) = 1.0`, and for
`total_update = 0` the call raises a division error instead of returning);
in particular `PolyScheduler(total_update=100, power=1.0)` returns
`base_lr` at `num_update = 0`, `base_lr * 0.5` at `num_update = 50`, and
`0.0` at `num_update = 100`. -/
theorem poly_horizon_zero (total : ℤ) (p : ℚ)
    (ht : total ≠ 0) (hp : 0 < p) (hp1 : p ≤ 1) :
    PolyScheduler.mk? total p = some ⟨1/100, p, total⟩ ∧
    (⟨1/100, p, total⟩ : PolyScheduler).call total =
      (⟨1/100, p, total⟩, some 0) ∧
    PolyScheduler.mk? 100 1 = some ⟨1/100, 1, 100⟩ ∧
    (⟨1/100, 1, 100⟩ : PolyScheduler).call 0 =
      (⟨1/100, 1, 100⟩, some ((1/100 : ℝ))) ∧
    (⟨1/100, 1, 100⟩ : PolyScheduler).call 50 =
      (⟨1/100, 1, 100⟩, some ((1/100 : ℝ) * (1/2))) ∧
    (⟨1/100, 1, 100⟩ : PolyScheduler).call 100 =
      (⟨1/100, 1, 100⟩, some 0) := by
  have htR : (total : ℝ) ≠ 0 := Int.cast_ne_zero.mpr ht
  have hpR : ((p : ℝ)) ≠ 0 := by
    rw [ne_eq, Rat.cast_eq_zero]
    exact ne_of_gt hp
  refine ⟨?_, ?_, ?_, ?_, ?_, ?_⟩
  · unfold PolyScheduler.mk?
    rw [if_neg (by push_neg; exact ⟨hp1, hp.le⟩)]
  · unfold PolyScheduler.call
    rw [if_neg ht]
    have : (1 : ℝ) - (total : ℝ) / (total : ℝ) = 0 := by
      rw [div_self htR]
      ring
    rw [show ((⟨1/100, p, total⟩ : PolyScheduler).total_update : ℝ) =
        (total : ℝ) from rfl]
    rw [this, Real.zero_rpow hpR, mul_zero]
  · norm_num [PolyScheduler.mk?]
  · unfold PolyScheduler.call
    rw [if_neg (by norm_num)]
    norm_num [Real.rpow_one]
  · unfold PolyScheduler.call
    rw [if_neg (by norm_num)]
    norm_num [Real.rpow_one]
  · unfold PolyScheduler.call
    rw [if_neg (by norm_num)]
    norm_num [Real.zero_rpow]

/-- C4 witness: the amended horizon theorem applied to
`total_update = 7`, `power = 0.5`. -/
theorem poly_horizon_zero_witness :
    PolyScheduler.mk? 7 (1/2) = some ⟨1/100, 1/2, 7⟩ ∧
    (⟨1/100, 1/2, 7⟩ : PolyScheduler).call 7 = (⟨1/100, 1/2, 7⟩, some 0) ∧
    PolyScheduler.mk? 100 1 = some ⟨1/100, 1, 100⟩ ∧
    (⟨1/100, 1, 100⟩ : PolyScheduler).call 0 =
      (⟨1/100, 1, 100⟩, some ((1/100 : ℝ))) ∧
    (⟨1/100, 1, 100⟩ : PolyScheduler).call 50 =
      (⟨1/100, 1, 100⟩, some ((1/100 : ℝ) * (1/2))) ∧
    (⟨1/100, 1, 100⟩ : PolyScheduler).call 100 =
      (⟨1/100, 1, 100⟩, some 0) :=
  poly_horizon_zero 7 (1/2) (by decide) (by norm_num) (by norm_num)

/-- C9: `PolyScheduler` construction places no positivity constraint on
`total_update`: with `total_update = 0` and any power in `[0, 1]`,
construction succeeds, and every subsequent call fails with a
division-by-zero error instead of returning a rate. -/
theorem poly_zero_total (p : ℚ) (h0 : 0 ≤ p) (h1 : p ≤ 1) :
    PolyScheduler.mk? 0 p = some ⟨1/100, p, 0⟩ ∧
    ∀ u : ℤ, (⟨1/100, p, 0⟩ : PolyScheduler).call u =
      (⟨1/100, p, 0⟩, none) := by
  constructor
  · unfold PolyScheduler.mk?
    rw [if_neg (by push_neg; exact ⟨h1, h0⟩)]
  · intro u
    unfold PolyScheduler.call
    rw [if_pos rfl]

/-- C9 witness: construction with `total_update = 0`, `power = 0.5`
succeeds and the call with `num_update = 5` fails. -/
theorem poly_zero_total_witness :
    PolyScheduler.mk? 0 (1/2) = some ⟨1/100, 1/2, 0⟩ ∧
    (⟨1/100, 1/2, 0⟩ : PolyScheduler).call 5 = (⟨1/100, 1/2, 0⟩, none) :=
  ⟨(poly_zero_total (1/2) (by norm_num) (by norm_num)).1,
    (poly_zero_total (1/2) (by norm_num) (by norm_num)).2 5⟩

/-- C8 (counterexample): construction of `MultiFactorScheduler` with the
empty milestone list fails (the `len(step) >= 1` assertion), although the
empty list is vacuously strictly increasing, has no entry below `1`, and
the factor is at most `1.0` — a failing configuration outside the set of
invalid configurations the claim lists. -/
theorem multifactor_empty_counterexample :
    MultiFactorScheduler.mk? [] (1/2) = none ∧
    List.Chain' (fun a b : ℤ => a < b) [] ∧
    (∀ x ∈ ([] : List ℤ), 1 ≤ x) ∧ (1/2 : ℚ) ≤ 1 := by
  refine ⟨?_, List.chain'_nil, by simp, by norm_num⟩
  simp [MultiFactorScheduler.mk?]

/-- C8 (amended): construction fails exactly for: `FactorScheduler` with
`step < 1` or `factor > 1.0`; `MultiFactorScheduler` with an empty
milestone list, a list that is not strictly increasing, an entry below
`1`, or `factor > 1.0`; `PolyScheduler` with `power > 1.0` or
`power < 0.0`.  In particular the three configurations named by the claim
(`MultiFactorScheduler(step=[5,3])`, `FactorScheduler(step=0)`,
`PolyScheduler(total_update=100, power=1.5)`) all fail to construct. -/
theorem construction_validation :
    (∀ (step : ℤ) (factor L : ℚ),
      FactorScheduler.mk? step factor L = none ↔
        step < 1 ∨ factor > 1) ∧
    (∀ (ms : List ℤ) (factor : ℚ),
      MultiFactorScheduler.mk? ms factor = none ↔
        ms.length < 1 ∨ ¬ ms.Chain' (fun a b => a < b) ∨
        (∃ x ∈ ms, x < 1) ∨ factor > 1) ∧
    (∀ (t : ℤ) (p : ℚ), PolyScheduler.mk? t p = none ↔ p > 1 ∨ p < 0) ∧
    MultiFactorScheduler.mk? [5, 3] (1/10) = none ∧
    FactorScheduler.mk? 0 (1/2) (1/100000000) = none ∧
    PolyScheduler.mk? 100 (3/2) = none := by
  refine ⟨?_, ?_, ?_, ?_, ?_, ?_⟩
  · intro step f L
    unfold FactorScheduler.mk?
    split_ifs with h1 h2
    · simp [h1]
    · simp [h1, h2]
    · simp [h1, h2]
  · intro ms f
    unfold MultiFactorScheduler.mk?
    split_ifs with h
    · obtain ⟨hlen, hch, hx, hf⟩ := h
      constructor
      · intro heq
        exact heq.elim
      · intro hd
        exfalso
        rcases hd with hd | hd | hd | hd
        · omega
        · exact hd hch
        · obtain ⟨x, hxm, hx1⟩ := hd
          have := hx x hxm
          omega
        · exact absurd hf (not_le.mpr hd)
    · constructor
      · intro _
        by_contra hc
        push_neg at hc
        obtain ⟨h1, h2, h3, h4⟩ := hc
        exact h ⟨by omega, h2, h3, h4⟩
      · intro _
        rfl
  · intro t p
    unfold PolyScheduler.mk?
    split_ifs with h <;> simp [h]
  · norm_num [MultiFactorScheduler.mk?, List.chain'_cons,
      List.chain'_singleton]
  · norm_num [FactorScheduler.mk?]
  · norm_num [PolyScheduler.mk?]

/-- C10: the factor validation in `FactorScheduler` and
`MultiFactorScheduler` is only the upper bound `factor ≤ 1.0`: every zero
or negative factor is accepted without error, given the other arguments
pass their own validation. -/
theorem nonpositive_factor_accepted (f : ℚ) (hf : f ≤ 0) :
    (∀ (step : ℤ) (L : ℚ), 1 ≤ step →
      FactorScheduler.mk? step f L = some ⟨step, f, L, 1/100, 0⟩) ∧
    (∀ ms : List ℤ, 1 ≤ ms.length → ms.Chain' (fun a b => a < b) →
      (∀ x ∈ ms, 1 ≤ x) →
      MultiFactorScheduler.mk? ms f = some ⟨ms, f, 1/100, 0, 0⟩) := by
  have hf1 : f ≤ 1 := le_trans hf (by norm_num)
  constructor
  · intro step L hstep
    unfold FactorScheduler.mk?
    rw [if_neg (by omega), if_neg (not_lt.mpr hf1)]
  · intro ms h1 h2 h3
    unfold MultiFactorScheduler.mk?
    rw [if_pos ⟨h1, h2, h3, hf1⟩]

/-- C10 witness: the zero-or-negative-factor acceptance applied to
`factor = -1` with `FactorScheduler(step=1)` and
`MultiFactorScheduler(step=[5])`. -/
theorem nonpositive_factor_accepted_witness :
    FactorScheduler.mk? 1 (-1) (1/100000000) =
      some ⟨1, -1, 1/100000000, 1/100, 0⟩ ∧
    MultiFactorScheduler.mk? [5] (-1) = some ⟨[5], -1, 1/100, 0, 0⟩ :=
  ⟨(nonpositive_factor_accepted (-1) (by norm_num)).1 1 (1/100000000)
      (by norm_num),
    (nonpositive_factor_accepted (-1) (by norm_num)).2 [5] (by norm_num)
      (by simp) (by norm_num)⟩
